import Mathlib

/-!
A verification model of the NoMoScroll backend's resilient analysis pipeline.

The definitions below are a shallow embedding of the TypeScript sources:
  * `src/services/cache.service.ts`  — `CacheService` (fingerprinting, bounded
    TTL/LFU-style cache),
  * `src/services/gemini.service.ts` — `GeminiService.parseResponse`,
    `normalizeResponse`, `getFallbackResponse`, `analyzeContent`,
  * `src/middleware/validation.middleware.ts` — `validateRequest`,
  * `src/server.ts`                  — the `/api/analyze` route handler.

JavaScript dynamic values are modelled by the inductive type `JVal`
(including `undefined` and `NaN`); JavaScript numbers are modelled as
rationals (every quantity handled by this code is small and decimal, so
double rounding never changes a comparison made here); thrown exceptions
are modelled as `Except.error` propagation, and `try/catch` as a `match`
on the `Except`.  All definitions are executable.
-/

set_option maxRecDepth 100000

/-- A JavaScript runtime value, as produced by `JSON.parse` and passed around
the pipeline.  `undefined` models `undefined` (absent property), `nan` models
`NaN`.  Numbers are rationals. -/
inductive JVal where
  | undefined : JVal
  | null : JVal
  | bool : Bool → JVal
  | num : ℚ → JVal
  | nan : JVal
  | str : String → JVal
  | arr : List JVal → JVal
  | obj : List (String × JVal) → JVal

/-- JavaScript truthiness: `undefined`, `null`, `false`, `0`, `NaN` and the
empty string are falsy; every object and array is truthy. -/
def truthy : JVal → Bool
  | .undefined => false
  | .null => false
  | .bool b => b
  | .num q => !(q == 0)
  | .nan => false
  | .str s => !s.data.isEmpty
  | .arr _ => true
  | .obj _ => true

/-- The JavaScript `typeof` operator (note `typeof null === "object"` and
`typeof NaN === "number"`; arrays are objects). -/
def jsTypeof : JVal → String
  | .undefined => "undefined"
  | .null => "object"
  | .bool _ => "boolean"
  | .num _ => "number"
  | .nan => "number"
  | .str _ => "string"
  | .arr _ => "object"
  | .obj _ => "object"

/-- Property read `v.k`.  On a non-object this yields `undefined` (the code
only ever reads properties of values that cannot be `null`/`undefined` at
that point, so the throwing case of JavaScript never applies where this is
used).  For duplicate keys `JSON.parse` keeps the last one, hence the
reversed lookup. -/
def getField (v : JVal) (k : String) : JVal :=
  match v with
  | .obj fs =>
    match fs.reverse.find? (fun p => p.1 == k) with
    | some p => p.2
    | none => .undefined
  | _ => .undefined

/-- The JavaScript `in` operator restricted to plain objects: `k in v`. -/
def fieldMem (v : JVal) (k : String) : Bool :=
  match v with
  | .obj fs => fs.any (fun p => p.1 == k)
  | _ => false

/-- JavaScript `a || b`: `a` if truthy, else `b`. -/
def jsOr (a b : JVal) : JVal := if truthy a then a else b

/-- Whitespace for JavaScript's `\s` class and `String.prototype.trim`
(ASCII part plus NBSP; the inputs relevant here are ASCII). -/
def isJsWs (c : Char) : Bool :=
  c == ' ' || c == '\t' || c == '\n' || c == '\r' ||
  c == (Char.ofNat 11) || c == (Char.ofNat 12) || c == (Char.ofNat 160)

/-- `String.prototype.trim` on a character list. -/
def jsTrim (cs : List Char) : List Char :=
  ((cs.dropWhile isJsWs).reverse.dropWhile isJsWs).reverse

/-- ASCII lowercasing, modelling `toLowerCase` on the ASCII inputs at play. -/
def toLowerAscii (cs : List Char) : List Char := cs.map Char.toLower

mutual
/-- `replace(/\s+/g, ' ')`: collapse every run of whitespace to one space. -/
def collapseWs : List Char → List Char
  | [] => []
  | c :: rest => if isJsWs c then ' ' :: collapseAfterWs rest else c :: collapseWs rest

/-- Helper of `collapseWs`: skip the remainder of a whitespace run. -/
def collapseAfterWs : List Char → List Char
  | [] => []
  | c :: rest => if isJsWs c then collapseAfterWs rest else c :: collapseWs rest
end

/-! ## CacheService (src/services/cache.service.ts) -/

/-- A cache entry: `{ result, timestamp, hitCount }` (`result: any` is a type
parameter; `timestamp` is epoch milliseconds). -/
structure CacheEntry (α : Type) where
  result : α
  timestamp : ℤ
  hitCount : ℕ
deriving DecidableEq, Repr

/-- The private `Map<string, CacheEntry>`, modelled as an association list in
insertion order (JavaScript `Map` iterates in insertion order, and `set` on an
existing key updates it in place). -/
abbrev CacheState (α : Type) : Type := List (String × CacheEntry α)

/-- `Map.prototype.get`. -/
def mapGet {α : Type} (c : CacheState α) (k : String) : Option (CacheEntry α) :=
  (c.find? (fun p => p.1 == k)).map (fun p => p.2)

/-- `Map.prototype.set`: update the existing key in place, else append. -/
def mapSet {α : Type} : CacheState α → String → CacheEntry α → CacheState α
  | [], k, e => [(k, e)]
  | (k', e') :: rest, k, e =>
    if k' == k then (k, e) :: rest else (k', e') :: mapSet rest k e

/-- `Map.prototype.delete` (for a key-unique map, dropping every pair with
that key). -/
def mapDelete {α : Type} (c : CacheState α) (k : String) : CacheState α :=
  c.filter (fun p => !(p.1 == k))

/-- Well-formedness of the map model: keys are pairwise distinct, as they are
in a JavaScript `Map`. -/
def CacheWF {α : Type} (c : CacheState α) : Prop := (c.map Prod.fst).Nodup

namespace CacheService

/-- `TTL = 2 * 60 * 60 * 1000` (two hours, in milliseconds). -/
def TTL : ℤ := 2 * 60 * 60 * 1000

/-- `MAX_SIZE = 1000`. -/
def MAX_SIZE : ℕ := 1000

/-- Normalization performed by `generateCacheKey`: lowercase, collapse runs of
whitespace to single spaces, trim, then keep the first 500 characters. -/
def normalizeContent (content : String) : String :=
  String.mk ((jsTrim (collapseWs (toLowerAscii content.data))).take 500)

/-- `generateCacheKey(content, domain)`: the digest input is
`normalizedContent + ":" + domain`.  The md5 hex digest itself is the Node
`crypto` library, an external primitive; it is abstracted as a `digest`
parameter, which the specification's collision-resistance contract renders
injective on the inputs at play. -/
def generateCacheKey (digest : String → String) (content domain : String) : String :=
  digest (normalizeContent content ++ ":" ++ domain)

/-- Phase one of `cleanOldEntries`: delete every expired entry. -/
def expirePhase {α : Type} (now : ℤ) (c : CacheState α) : CacheState α :=
  c.filter (fun p => !(TTL < now - p.2.timestamp))

/-- The comparator `(a, b) => a[1].hitCount - b[1].hitCount` as an ordering
relation. -/
def hitLE {α : Type} (a b : String × CacheEntry α) : Prop :=
  a.2.hitCount ≤ b.2.hitCount

instance {α : Type} : DecidableRel (hitLE (α := α)) :=
  fun a b => Nat.decLe a.2.hitCount b.2.hitCount

instance {α : Type} : IsTotal (String × CacheEntry α) hitLE :=
  ⟨fun a b => Nat.le_total a.2.hitCount b.2.hitCount⟩

instance {α : Type} : IsTrans (String × CacheEntry α) hitLE :=
  ⟨fun _ _ _ hab hbc => Nat.le_trans hab hbc⟩

/-- `Array.from(entries).sort((a, b) => a[1].hitCount - b[1].hitCount)`.
JavaScript's sort is stable, so any stable sort by `hitCount` (here insertion
sort) produces the same array. -/
def sortByHits {α : Type} (c : CacheState α) : CacheState α :=
  List.insertionSort hitLE c

/-- The `.slice(0, 100)` of the sorted entries: the (at most) 100 least-used
entries, whose keys phase two deletes. -/
def removedEntries {α : Type} (c : CacheState α) : CacheState α :=
  (sortByHits c).take 100

/-- Phase two of `cleanOldEntries`: delete the keys of the 100 least-used
entries (sequential `Map.delete` on a key-unique map = filtering them out). -/
def evictPhase {α : Type} (c : CacheState α) : CacheState α :=
  let removedKeys := (removedEntries c).map Prod.fst
  c.filter (fun p => !(removedKeys.contains p.1))

/-- `cleanOldEntries()`: delete expired entries, then, if the cache is still
at or over `MAX_SIZE`, remove the 100 least-used entries. -/
def cleanOldEntries {α : Type} (c : CacheState α) (now : ℤ) : CacheState α :=
  let c1 := expirePhase now c
  if MAX_SIZE ≤ c1.length then evictPhase c1 else c1

/-- `set(key, result)`: reclaim space if at capacity, then insert a fresh
entry with `hitCount = 0`. -/
def set {α : Type} (c : CacheState α) (key : String) (result : α) (now : ℤ) :
    CacheState α :=
  let c1 := if MAX_SIZE ≤ c.length then cleanOldEntries c now else c
  mapSet c1 key { result := result, timestamp := now, hitCount := 0 }

/-- `get(key)`: absent if never set or expired (deleting the expired entry);
on a hit, increment `hitCount` and return the stored result. -/
def get {α : Type} (c : CacheState α) (key : String) (now : ℤ) :
    Option α × CacheState α :=
  match mapGet c key with
  | none => (none, c)
  | some e =>
    if TTL < now - e.timestamp then
      (none, mapDelete c key)
    else
      (some e.result, mapSet c key { e with hitCount := e.hitCount + 1 })

/-- Folding a sequence of `set` operations (key, result, wall-clock time) over
an initially empty cache. -/
def runSets {α : Type} (ops : List (String × α × ℤ)) : CacheState α :=
  ops.foldl (fun c op => set c op.1 op.2.1 op.2.2) []

end CacheService

/-! ## JavaScript number coercion and `Math.min` / `Math.max` -/

/-- Decimal digit test. -/
def isDigitCh (c : Char) : Bool := '0' ≤ c && c ≤ '9'

/-- Read a maximal run of decimal digits: value, digit count, rest. -/
def readDigitsAux : List Char → ℕ → ℕ → ℕ × ℕ × List Char
  | [], acc, n => (acc, n, [])
  | c :: rest, acc, n =>
    if isDigitCh c then readDigitsAux rest (10 * acc + (c.toNat - 48)) (n + 1)
    else (acc, n, c :: rest)

/-- Read a maximal run of decimal digits from the front of a string. -/
def readDigits (cs : List Char) : ℕ × ℕ × List Char := readDigitsAux cs 0 0

/-- Assemble a decimal literal `sign (d1 . d2) * 10^(±e)` into a rational
(the integer-valued cases are arranged division-free so that concrete
evaluation reduces). -/
def assembleDecimal (neg : Bool) (d1 : ℕ) (d2 : ℕ) (n2 : ℕ) (expNeg : Bool) (e : ℕ) : ℚ :=
  let base : ℚ :=
    if n2 == 0 then (d1 : ℚ)
    else ((d1 * 10 ^ n2 + d2 : ℕ) : ℚ) / ((10 ^ n2 : ℕ) : ℚ)
  let scaled : ℚ :=
    if e == 0 then base
    else if expNeg then base / ((10 ^ e : ℕ) : ℚ) else base * ((10 ^ e : ℕ) : ℚ)
  if neg then -scaled else scaled

/-- Optional exponent part `[eE][+-]?digits` of a decimal literal; `none` means
a malformed exponent. -/
def readExponent (cs : List Char) : Option (Bool × ℕ × List Char) :=
  match cs with
  | 'e' :: rest | 'E' :: rest =>
    let (expNeg, rest2) := match rest with
      | '-' :: r => (true, r)
      | '+' :: r => (false, r)
      | _ => (false, rest)
    match readDigits rest2 with
    | (_, 0, _) => none
    | (e, _, r) => some (expNeg, e, r)
  | _ => some (false, 0, cs)

/-- The decimal-literal part of JavaScript `Number(string)` (after trimming):
optional sign, digits, optional fraction, optional exponent; the whole string
must be consumed.  Hex/`Infinity` forms are not modelled (never relevant
here).  Returns `none` for NaN. -/
def numberFromChars (cs : List Char) : Option ℚ :=
  let (neg, cs1) := match cs with
    | '-' :: r => (true, r)
    | '+' :: r => (false, r)
    | _ => (false, cs)
  match readDigits cs1 with
  | (d1, n1, r1) =>
    match r1 with
    | '.' :: r2 =>
      match readDigits r2 with
      | (d2, n2, r3) =>
        if n1 + n2 == 0 then none
        else
          match readExponent r3 with
          | some (expNeg, e, r4) =>
            if r4.isEmpty then some (assembleDecimal neg d1 d2 n2 expNeg e) else none
          | none => none
    | _ =>
      if n1 == 0 then none
      else
        match readExponent r1 with
        | some (expNeg, e, r4) =>
          if r4.isEmpty then some (assembleDecimal neg d1 0 0 expNeg e) else none
        | none => none

/-- JavaScript `Number(string)`: trim; empty means `0`; else the decimal
literal grammar. -/
def jsStringToNumber (s : String) : Option ℚ :=
  let cs := jsTrim s.data
  if cs.isEmpty then some 0 else numberFromChars cs

/-- JavaScript `Number(v)` coercion (`none` = NaN).  `Number(null) = 0`,
`Number(undefined) = NaN`, booleans are 0/1, arrays go through their string
form (modelled for the empty and singleton cases), objects are NaN. -/
def toNumber : JVal → Option ℚ
  | .num q => some q
  | .nan => none
  | .null => some 0
  | .undefined => none
  | .bool b => some (if b then 1 else 0)
  | .str s => jsStringToNumber s
  | .arr [] => some 0
  | .arr [v] => toNumber v
  | .arr (_ :: _ :: _) => none
  | .obj _ => none

/-- `Math.min(a, b)`: NaN if either argument coerces to NaN. -/
def jsMin (a b : JVal) : JVal :=
  match toNumber a, toNumber b with
  | some x, some y => .num (min x y)
  | _, _ => .nan

/-- `Math.max(a, b)`: NaN if either argument coerces to NaN. -/
def jsMax (a b : JVal) : JVal :=
  match toNumber a, toNumber b with
  | some x, some y => .num (max x y)
  | _, _ => .nan

/-! ## JSON.parse -/

/-- JSON insignificant whitespace. -/
def jsonWsCh (c : Char) : Bool := c == ' ' || c == '\t' || c == '\n' || c == '\r'

/-- Skip JSON whitespace. -/
def skipJsonWs (cs : List Char) : List Char := cs.dropWhile jsonWsCh

/-- Hex digit value. -/
def hexVal (c : Char) : Option ℕ :=
  if isDigitCh c then some (c.toNat - 48)
  else if 'a' ≤ c && c ≤ 'f' then some (c.toNat - 87)
  else if 'A' ≤ c && c ≤ 'F' then some (c.toNat - 55)
  else none

/-- Body of a JSON string after the opening quote: returns the decoded
characters and the rest after the closing quote.  Raw control characters and
bad escapes are rejected, as `JSON.parse` rejects them. -/
def jsonStrAux : ℕ → List Char → Option (List Char × List Char)
  | 0, _ => none
  | _, [] => none
  | fuel + 1, c :: rest =>
    if c == '"' then some ([], rest)
    else if c == '\\' then
      match rest with
      | [] => none
      | e :: rest2 =>
        let dec : Option (Char × List Char) :=
          if e == '"' then some ('"', rest2)
          else if e == '\\' then some ('\\', rest2)
          else if e == '/' then some ('/', rest2)
          else if e == 'b' then some (Char.ofNat 8, rest2)
          else if e == 'f' then some (Char.ofNat 12, rest2)
          else if e == 'n' then some ('\n', rest2)
          else if e == 'r' then some ('\r', rest2)
          else if e == 't' then some ('\t', rest2)
          else if e == 'u' then
            match rest2 with
            | a :: b :: c2 :: d :: rest3 =>
              match hexVal a, hexVal b, hexVal c2, hexVal d with
              | some x, some y, some z, some w =>
                some (Char.ofNat (((x * 16 + y) * 16 + z) * 16 + w), rest3)
              | _, _, _, _ => none
            | _ => none
          else none
        match dec with
        | some (ch, rest3) =>
          match jsonStrAux fuel rest3 with
          | some (s, r) => some (ch :: s, r)
          | none => none
        | none => none
    else if c.toNat < 32 then none
    else
      match jsonStrAux fuel rest with
      | some (s, r) => some (c :: s, r)
      | none => none

/-- A strict JSON number (no leading zeros, no bare `.`), as `JSON.parse`
accepts. -/
def jsonNumParse (cs : List Char) : Option (ℚ × List Char) :=
  let (neg, cs1) := match cs with
    | '-' :: r => (true, r)
    | _ => (false, cs)
  match readDigits cs1 with
  | (_, 0, _) => none
  | (d1, n1, r1) =>
    if 2 ≤ n1 && cs1.head? == some '0' then none
    else
      match r1 with
      | '.' :: r2 =>
        match readDigits r2 with
        | (_, 0, _) => none
        | (d2, n2, r3) =>
          match readExponent r3 with
          | some (expNeg, e, r4) => some (assembleDecimal neg d1 d2 n2 expNeg e, r4)
          | none => none
      | _ =>
        match readExponent r1 with
        | some (expNeg, e, r4) => some (assembleDecimal neg d1 0 0 expNeg e, r4)
        | none => none

mutual
/-- Recursive-descent JSON value parser (fuel-indexed; the top level supplies
ample fuel, so exhaustion never fires on terminating input). -/
def jparse : ℕ → List Char → Option (JVal × List Char)
  | 0, _ => none
  | fuel + 1, cs0 =>
    let cs := skipJsonWs cs0
    match cs with
    | 'n' :: 'u' :: 'l' :: 'l' :: rest => some (.null, rest)
    | 't' :: 'r' :: 'u' :: 'e' :: rest => some (.bool true, rest)
    | 'f' :: 'a' :: 'l' :: 's' :: 'e' :: rest => some (.bool false, rest)
    | '"' :: rest =>
      match jsonStrAux (rest.length + 1) rest with
      | some (s, r) => some (.str (String.mk s), r)
      | none => none
    | '[' :: rest =>
      match skipJsonWs rest with
      | ']' :: rest2 => some (.arr [], rest2)
      | rest2 => jparseArr fuel rest2 []
    | '{' :: rest =>
      match skipJsonWs rest with
      | '}' :: rest2 => some (.obj [], rest2)
      | rest2 => jparseObj fuel rest2 []
    | _ =>
      match jsonNumParse cs with
      | some (q, r) => some (.num q, r)
      | none => none

/-- Elements of a JSON array (after the first `[`). -/
def jparseArr : ℕ → List Char → List JVal → Option (JVal × List Char)
  | 0, _, _ => none
  | fuel + 1, cs, acc =>
    match jparse fuel cs with
    | none => none
    | some (v, rest) =>
      match skipJsonWs rest with
      | ',' :: rest2 => jparseArr fuel rest2 (v :: acc)
      | ']' :: rest2 => some (.arr (v :: acc).reverse, rest2)
      | _ => none

/-- Members of a JSON object (after the first `{`). -/
def jparseObj : ℕ → List Char → List (String × JVal) → Option (JVal × List Char)
  | 0, _, _ => none
  | fuel + 1, cs, acc =>
    match skipJsonWs cs with
    | '"' :: rest =>
      match jsonStrAux (rest.length + 1) rest with
      | none => none
      | some (k, rest2) =>
        match skipJsonWs rest2 with
        | ':' :: rest3 =>
          match jparse fuel rest3 with
          | none => none
          | some (v, rest4) =>
            match skipJsonWs rest4 with
            | ',' :: rest5 => jparseObj fuel rest5 ((String.mk k, v) :: acc)
            | '}' :: rest5 => some (.obj ((String.mk k, v) :: acc).reverse, rest5)
            | _ => none
        | _ => none
    | _ => none
end

/-- `JSON.parse`: parse one JSON value and require only whitespace after it;
`none` models a thrown `SyntaxError`. -/
def jsonParse (s : String) : Option JVal :=
  match jparse (2 * s.data.length + 2) s.data with
  | some (v, rest) => if (skipJsonWs rest).isEmpty then some v else none
  | none => none

/-! ## The extraction cascade of `GeminiService.parseResponse` -/

/-- Scan a character list, carrying absolute indices, for the first position
satisfying `p`. -/
def scanIdx (p : ℕ → Char → Bool) : ℕ → List Char → Option ℕ
  | _, [] => none
  | i, c :: rest => if p i c then some i else scanIdx p (i + 1) rest

/-- Index of the first occurrence of a character. -/
def firstIdxOf (cs : List Char) (t : Char) : Option ℕ :=
  scanIdx (fun _ c => c == t) 0 cs

/-- Index of the last occurrence of a character (`String.lastIndexOf`). -/
def lastIdxAux (t : Char) : List Char → ℕ → Option ℕ → Option ℕ
  | [], _, best => best
  | c :: rest, i, best => lastIdxAux t rest (i + 1) (if c == t then some i else best)

/-- `lastIndexOf` on a character list. -/
def lastIdxOf (cs : List Char) (t : Char) : Option ℕ := lastIdxAux t cs 0 none

/-- The inclusive span `cs[i..j]`. -/
def seg (cs : List Char) (i j : ℕ) : List Char := (cs.drop i).take (j + 1 - i)

/-- Lookahead `(?=\s*$)`: only whitespace after position `j`. -/
def allWsAfter (cs : List Char) (j : ℕ) : Bool := (cs.drop (j + 1)).all isJsWs

/-- Lookahead `(?=\s*\n)`: a newline after position `j` preceded only by
whitespace. -/
def wsThenNewlineAfter (cs : List Char) (j : ℕ) : Bool :=
  ((cs.drop (j + 1)).takeWhile isJsWs).contains '\n'

/-- Shared shape of the first two cascade patterns `\{[\s\S]*?\}(?=look)`:
the match starts at the first `{` and ends, lazily, at the first later `}`
whose lookahead holds. -/
def lazyBraceMatch (cs : List Char) (look : ℕ → Bool) : Option (List Char) :=
  match firstIdxOf cs '{' with
  | none => none
  | some i =>
    match scanIdx (fun j c => c == '}' && look j) i (cs.drop i) with
    | none => none
    | some j => some (seg cs i j)

/-- Pattern 1: `\{[\s\S]*?\}(?=\s*$)` — a JSON-like span at the end. -/
def p1Match (cs : List Char) : Option (List Char) :=
  lazyBraceMatch cs (allWsAfter cs)

/-- Pattern 2: `\{[\s\S]*?\}(?=\s*\n)` — a span followed by a newline. -/
def p2Match (cs : List Char) : Option (List Char) :=
  lazyBraceMatch cs (wsThenNewlineAfter cs)

/-- Length of the maximal brace-free run at the front. -/
def nonBraceLen (cs : List Char) : ℕ :=
  (cs.takeWhile (fun c => !(c == '{') && !(c == '}'))).length

/-- Pattern 3 body `[^{}]*(?:\{[^{}]*\}[^{}]*)*\}` after an opening brace:
the number of characters matched, up to and including the closing brace.
Backtracking never changes the outcome here because no alternative can absorb
a brace, so this greedy scan equals the regex. -/
def p3From : ℕ → List Char → Option ℕ
  | 0, _ => none
  | fuel + 1, cs =>
    let k := nonBraceLen cs
    match cs.drop k with
    | '}' :: _ => some (k + 1)
    | '{' :: rest =>
      let k2 := nonBraceLen rest
      match rest.drop k2 with
      | '}' :: rest2 =>
        match p3From fuel rest2 with
        | some m => some (k + 1 + k2 + 1 + m)
        | none => none
      | _ => none
    | _ => none

/-- Pattern 3 `\{[^{}]*(?:\{[^{}]*\}[^{}]*)*\}`: try each `{` from the left
(regex leftmost-match), take the first start that matches. -/
def p3ScanAux (full : List Char) : ℕ → ℕ → Option (List Char)
  | 0, _ => none
  | fuel + 1, i =>
    match scanIdx (fun _ c => c == '{') i (full.drop i) with
    | none => none
    | some i' =>
      match p3From (full.length + 1) (full.drop (i' + 1)) with
      | some m => some (seg full i' (i' + m))
      | none => p3ScanAux full fuel (i' + 1)

/-- Pattern 3 entry point. -/
def p3Match (cs : List Char) : Option (List Char) :=
  p3ScanAux cs (cs.length + 1) 0

/-- Pattern 4: `\{[\s\S]*\}` — greedily from the first `{` to the last `}`. -/
def p4Match (cs : List Char) : Option (List Char) :=
  match firstIdxOf cs '{', lastIdxOf cs '}' with
  | some i, some j => if i < j then some (seg cs i j) else none
  | _, _ => none

/-- The ordered cascade: the first of the four patterns that matches wins. -/
def firstPatternMatch (cs : List Char) : Option (List Char) :=
  match p1Match cs with
  | some m => some m
  | none =>
    match p2Match cs with
    | some m => some m
    | none =>
      match p3Match cs with
      | some m => some m
      | none => p4Match cs

/-- Substring containment of a needle in a haystack. -/
def containsSeg (needle : List Char) : List Char → Bool
  | [] => needle.isEmpty
  | c :: rest => needle.isPrefixOf (c :: rest) || containsSeg needle rest

/-- The last-resort recovery pattern `\{[^{}]*"user_pattern"[^{}]*\}`: a
brace-free span between `{` and `}` containing the literal `"user_pattern"`;
tried from each `{` left to right. -/
def simpleMatchAux (full : List Char) : ℕ → ℕ → Option (List Char)
  | 0, _ => none
  | fuel + 1, i =>
    match scanIdx (fun _ c => c == '{') i (full.drop i) with
    | none => none
    | some i' =>
      let k := nonBraceLen (full.drop (i' + 1))
      match (full.drop (i' + 1)).drop k with
      | '}' :: _ =>
        if containsSeg "\"user_pattern\"".data ((full.drop (i' + 1)).take k) then
          some (seg full i' (i' + 1 + k))
        else simpleMatchAux full fuel (i' + 1)
      | _ => simpleMatchAux full fuel (i' + 1)

/-- Entry point for the recovery pattern. -/
def simpleMatch (cs : List Char) : Option (List Char) :=
  simpleMatchAux cs (cs.length + 1) 0

/-- `replace(/\s*```$/, '')`: drop a trailing fence and the whitespace just
before it. -/
def stripTrailingFence (cs : List Char) : List Char :=
  if "```".data.isSuffixOf cs then
    ((cs.reverse.drop 3).dropWhile isJsWs).reverse
  else cs

/-- The fenced-code-block stripping at the top of `parseResponse`
(`replace(/^```json\s*/, '')` / `replace(/^```\s*/, '')` guarded by
`startsWith`). -/
def stripFences (cs : List Char) : List Char :=
  if "```json".data.isPrefixOf cs then
    stripTrailingFence ((cs.drop 7).dropWhile isJsWs)
  else if "```".data.isPrefixOf cs then
    stripTrailingFence ((cs.drop 3).dropWhile isJsWs)
  else cs

/-! ## GeminiService response handling (src/services/gemini.service.ts) -/

/-- The `AIAnalysisResponse` object constructed by `parseResponse` /
`normalizeResponse` / `getFallbackResponse`.  Fields hold JavaScript values:
TypeScript's annotations are not enforced at runtime, so nothing narrows
them. -/
structure AIAnalysisResponse where
  user_pattern : JVal
  addiction_risk : JVal
  educational_value : JVal
  recommended_action : JVal
  bonus_scrolls : JVal
  reasoning : JVal
  break_suggestion : JVal
  content_type : JVal
  confidence_score : JVal

/-- `normalizeResponse(parsed)` — also the exact object literal returned at
the end of `parseResponse`'s `try` block (the two are character-for-character
identical in the source, so both are modelled by this one definition). -/
def normalizeResponse (parsed : JVal) : AIAnalysisResponse :=
  { user_pattern := jsOr (getField parsed "user_pattern") (.str "Casual Browsing/Catch-up")
    addiction_risk := jsMax (.num 0) (jsMin (.num 10) (jsOr (getField parsed "addiction_risk") (.num 5)))
    educational_value := jsMax (.num 0) (jsMin (.num 10) (jsOr (getField parsed "educational_value") (.num 0)))
    recommended_action := jsOr (getField parsed "recommended_action") (.str "maintain_limit")
    bonus_scrolls := jsMax (.num 0) (jsMin (.num 20) (jsOr (getField parsed "bonus_scrolls") (.num 0)))
    reasoning := jsOr (getField parsed "reasoning") (.str "Analysis completed")
    break_suggestion := jsOr (getField parsed "break_suggestion") .null
    content_type := jsOr (getField parsed "content_type") (.str "unknown")
    confidence_score := jsMax (.num 0) (jsMin (.num 1) (jsOr (getField parsed "confidence_score") (.num 0.8))) }

/-- `getFallbackResponse`: the fixed conservative result used when analysis
fails (note `bonus_scrolls: 0` in the source). -/
def getFallbackResponse : AIAnalysisResponse :=
  { user_pattern := .str "Casual Browsing/Catch-up"
    addiction_risk := .num 5
    educational_value := .num 5
    recommended_action := .str "maintain_limit"
    bonus_scrolls := .num 0
    reasoning := .str "AI analysis unavailable, maintaining original scroll limit"
    break_suggestion := .str "Take a 5-minute break to rest your eyes"
    content_type := .str "unknown"
    confidence_score := .num 0 }

/-- The `catch` arm of `parseResponse`: one more attempt with the simple
regex against the original text; if that fails too, `throw` (= `.error`). -/
def parseRecovery (responseText : List Char) : Except Unit AIAnalysisResponse :=
  match simpleMatch responseText with
  | some matched =>
    match jsonParse (String.mk matched) with
    | some parsed => .ok (normalizeResponse parsed)
    | none => .error ()
  | none => .error ()

/-- The text-cleaning steps of `GeminiService.parseResponse`: trim, strip
fences, run the pattern cascade, cut at the last `}`. -/
def cleanupText (responseText : String) : List Char :=
  let cleaned0 := jsTrim responseText.data
  let cleaned1 := stripFences cleaned0
  let cleaned2 :=
    match firstPatternMatch cleaned1 with
    | some m => m
    | none => cleaned1
  match lastIdxOf cleaned2 '}' with
  | some j => cleaned2.take (j + 1)
  | none => cleaned2

/-- The decode-and-check step of `parseResponse`: `JSON.parse` the cleaned
text, require the two mandatory fields (by truthiness), and build the
normalized result; the two `throw`s inside the `try` land in
`parseRecovery`. -/
def parseResponseE (responseText : String) : Except Unit AIAnalysisResponse :=
  match jsonParse (String.mk (cleanupText responseText)) with
  | none => parseRecovery responseText.data
  | some parsed =>
    if truthy (getField parsed "user_pattern") && truthy (getField parsed "recommended_action") then
      .ok (normalizeResponse parsed)
    else
      parseRecovery responseText.data

/-- `GeminiService.analyzeContent`: build prompt, call the model, parse; any
error anywhere (model call failure or a parse throw) is caught and replaced
by the fallback response.  The model call's outcome is the `call`
parameter. -/
def analyzeContentM (call : Except Unit String) : AIAnalysisResponse :=
  match call with
  | .error _ => getFallbackResponse
  | .ok text =>
    match parseResponseE text with
    | .ok r => r
    | .error _ => getFallbackResponse

/-- The per-pattern bonus ranges of the REWARD STRATEGY block in
`GeminiService.buildPrompt` (the only place in the repository where
per-pattern reward ranges appear — they are instructions to the model, not
code that runs). -/
def rewardStrategyRange (pattern : String) : Option (ℚ × ℚ) :=
  if pattern == "Deep Focus/Learning" then some (12, 20)
  else if pattern == "Active Socializing" then some (8, 15)
  else if pattern == "Intentional Leisure" then some (6, 12)
  else if pattern == "Casual Browsing/Catch-up" then some (3, 8)
  else if pattern == "Passive Consumption/Doomscrolling" then some (1, 5)
  else if pattern == "Anxiety-Driven Information Seeking" then some (2, 6)
  else none

/-- The six `user_pattern` variants of the `AIAnalysisResponse` interface. -/
def patternVariants : List String :=
  ["Deep Focus/Learning", "Active Socializing", "Intentional Leisure",
   "Casual Browsing/Catch-up", "Passive Consumption/Doomscrolling",
   "Anxiety-Driven Information Seeking"]

/-- The five `recommended_action` variants of the `AIAnalysisResponse`
interface. -/
def actionVariants : List String :=
  ["session_extension", "gentle_reward", "maintain_limit", "show_warning",
   "immediate_break"]

/-- Test that a JavaScript value is a number within an inclusive range. -/
def numInRange (v : JVal) (lo hi : ℚ) : Bool :=
  match v with
  | .num q => decide (lo ≤ q) && decide (q ≤ hi)
  | _ => false

/-- Modelled from the spec: structural validity of an `AnalysisResult` per
the specification's data model — `userPattern` one of the 6 variants,
`recommendedAction` one of the 5 variants, risk/value numbers on the 0–10
scale, `bonusScrolls` a non-negative integer, `reasoning` a non-empty
string, `breakSuggestion` null or a string.  (The runtime code never checks
the enum memberships; this predicate exists to compare its output against
the spec's notion of validity.) -/
def specStructurallyValid (r : AIAnalysisResponse) : Bool :=
  (match r.user_pattern with | .str s => patternVariants.contains s | _ => false) &&
  (match r.recommended_action with | .str s => actionVariants.contains s | _ => false) &&
  numInRange r.addiction_risk 0 10 &&
  numInRange r.educational_value 0 10 &&
  (match r.bonus_scrolls with | .num q => decide (0 ≤ q) && (q.den == 1) | _ => false) &&
  (match r.reasoning with | .str s => !s.data.isEmpty | _ => false) &&
  (match r.break_suggestion with | .null => true | .str _ => true | _ => false)

/-! ## validateRequest (src/middleware/validation.middleware.ts) -/

/-- `body.content`. -/
def contentOf (b : JVal) : JVal := getField b "content"

/-- `body.context`. -/
def contextOf (b : JVal) : JVal := getField b "context"

/-- The `requiredContextFields` array of the validator. -/
def requiredContextFields : List String :=
  ["scrollCount", "maxScrolls", "domain", "timestamp", "timeOfDay", "scrollTime"]

/-- The first required context field (in array order) missing from the
context object, if any — the validator's `for … in` loop. -/
def firstMissingField (ctx : JVal) : Option String :=
  requiredContextFields.find? (fun f => !(fieldMem ctx f))

/-- JavaScript `v < 0` for a value already known to be a number by `typeof`
(false for NaN, as in JavaScript). -/
def numLtZero (v : JVal) : Bool :=
  match v with
  | .num q => decide (q < 0)
  | _ => false

/-- JavaScript `v <= 0` for a `typeof`-number value (false for NaN). -/
def numLeZero (v : JVal) : Bool :=
  match v with
  | .num q => decide (q ≤ 0)
  | _ => false

/-- The underlying string of a string value (only used after the `typeof`
string check has succeeded). -/
def strVal (v : JVal) : String :=
  match v with
  | .str s => s
  | _ => ""

/-- `!body.content` is false. -/
def contentPresent (b : JVal) : Bool := truthy (contentOf b)

/-- `typeof body.content === 'string'`. -/
def contentIsString (b : JVal) : Bool := jsTypeof (contentOf b) == "string"

/-- `body.content.trim().length === 0` is false. -/
def contentNonempty (b : JVal) : Bool := !(jsTrim (strVal (contentOf b)).data).isEmpty

/-- `!body.context` is false. -/
def contextPresent (b : JVal) : Bool := truthy (contextOf b)

/-- `typeof body.context === 'object'`. -/
def contextIsObject (b : JVal) : Bool := jsTypeof (contextOf b) == "object"

/-- `typeof context.scrollCount === 'number' && !(context.scrollCount < 0)`. -/
def scrollCountOk (b : JVal) : Bool :=
  jsTypeof (getField (contextOf b) "scrollCount") == "number" &&
  !(numLtZero (getField (contextOf b) "scrollCount"))

/-- `typeof context.maxScrolls === 'number' && !(context.maxScrolls <= 0)`. -/
def maxScrollsOk (b : JVal) : Bool :=
  jsTypeof (getField (contextOf b) "maxScrolls") == "number" &&
  !(numLeZero (getField (contextOf b) "maxScrolls"))

/-- `typeof context.domain === 'string'` and non-empty after trimming. -/
def domainOk (b : JVal) : Bool :=
  jsTypeof (getField (contextOf b) "domain") == "string" &&
  !(jsTrim (strVal (getField (contextOf b) "domain")).data).isEmpty

/-- `typeof context.timestamp === 'number' && !(context.timestamp <= 0)`. -/
def timestampOk (b : JVal) : Bool :=
  jsTypeof (getField (contextOf b) "timestamp") == "number" &&
  !(numLeZero (getField (contextOf b) "timestamp"))

/-- `typeof context.timeOfDay === 'string'` and non-empty after trimming. -/
def timeOfDayOk (b : JVal) : Bool :=
  jsTypeof (getField (contextOf b) "timeOfDay") == "string" &&
  !(jsTrim (strVal (getField (contextOf b) "timeOfDay")).data).isEmpty

/-- `typeof context.scrollTime === 'number' && !(context.scrollTime < 0)`. -/
def scrollTimeOk (b : JVal) : Bool :=
  jsTypeof (getField (contextOf b) "scrollTime") == "number" &&
  !(numLtZero (getField (contextOf b) "scrollTime"))

/-- `body.content.length > 500000` is false (the content-size check — note
it appears in the source after every context check). -/
def contentSizeOk (b : JVal) : Bool :=
  !(decide (500000 < (strVal (contentOf b)).data.length))

/-- A `null`/`undefined` body makes the validator's property reads throw;
the middleware's own catch logs the fault and allows the request through
(the scrollCount-slack and domain-format checks only log warnings and are
omitted from `validateRequest` below, having no effect on its outcome). -/
def bodyAccessThrows (b : JVal) : Bool :=
  match b with
  | .null => true
  | .undefined => true
  | _ => false

/-- `validateRequest`, returning the first failure message in source order. -/
def validateRequest (body : JVal) : Except String Unit :=
  if bodyAccessThrows body then .ok ()
  else
    if !(contentPresent body) then .error "Missing required field: content"
    else if !(contentIsString body) then .error "Field \"content\" must be a string"
    else if !(contentNonempty body) then .error "Field \"content\" cannot be empty"
    else if !(contextPresent body) then .error "Missing required field: context"
    else if !(contextIsObject body) then .error "Field \"context\" must be an object"
    else
      match firstMissingField (contextOf body) with
      | some f => .error ("Missing required context field: " ++ f)
      | none =>
        if !(scrollCountOk body) then
          .error "Field \"context.scrollCount\" must be a non-negative number"
        else if !(maxScrollsOk body) then
          .error "Field \"context.maxScrolls\" must be a positive number"
        else if !(domainOk body) then
          .error "Field \"context.domain\" must be a non-empty string"
        else if !(timestampOk body) then
          .error "Field \"context.timestamp\" must be a positive number"
        else if !(timeOfDayOk body) then
          .error "Field \"context.timeOfDay\" must be a non-empty string"
        else if !(scrollTimeOk body) then
          .error "Field \"context.scrollTime\" must be a non-negative number"
        else if !(contentSizeOk body) then
          .error "Content too large. Maximum size is 500KB"
        else .ok ()

/-! ## The /api/analyze route (src/server.ts) -/

/-- Outcome of the route: a 400 validation rejection or a 200 payload with
the analysis result. -/
inductive HandleResult where
  | validationError : String → HandleResult
  | success : AIAnalysisResponse → HandleResult

/-- The `/api/analyze` route: `validateRequest` middleware, then
`geminiService.analyzeContent(...)`, then respond.  `server.ts` never
references `CacheService` (it is not imported, instantiated, read or
written anywhere in the routing code), so the shared cache state passes
through unchanged. -/
def handleAnalyze {α : Type} (cache : CacheState α) (body : JVal)
    (call : Except Unit String) : HandleResult × CacheState α :=
  match validateRequest body with
  | .error msg => (.validationError msg, cache)
  | .ok _ => (.success (analyzeContentM call), cache)

/-! ## Concrete inputs used by the witnesses and counterexamples -/

/-- A model reply with no JSON at all (the spec scenario's garbage text). -/
def garbageText : String := "I cannot analyze this."

/-- A decodable reply whose `user_pattern` is not one of the six variants. -/
def invalidEnumText : String :=
  "\x7b\"user_pattern\":\"X\",\"recommended_action\":\"maintain_limit\"\x7d"

/-- A decodable Deep Focus reply whose model-proposed `bonus_scrolls` is 0. -/
def deepFocusZeroBonusText : String :=
  "\x7b\"user_pattern\":\"Deep Focus/Learning\",\"recommended_action\":\"session_extension\",\"bonus_scrolls\":0,\"addiction_risk\":1,\"educational_value\":9,\"reasoning\":\"ok\"\x7d"

/-- A decodable reply with `bonus_scrolls: 5`. -/
def happy5Text : String :=
  "\x7b\"user_pattern\":\"Casual Browsing/Catch-up\",\"recommended_action\":\"gentle_reward\",\"bonus_scrolls\":5,\"reasoning\":\"ok\"\x7d"

/-- The decoded object of `happy5Text`. -/
def happy5Parsed : JVal :=
  .obj [("user_pattern", .str "Casual Browsing/Catch-up"),
        ("recommended_action", .str "gentle_reward"),
        ("bonus_scrolls", .num 5),
        ("reasoning", .str "ok")]

/-- A decoded object whose risk, value and bonus fields are all exactly 0. -/
def zeroFieldsObj : JVal :=
  .obj [("addiction_risk", .num 0), ("educational_value", .num 0),
        ("bonus_scrolls", .num 0)]

/-- A well-formed analysis request body. -/
def goodBody : JVal :=
  .obj [("content", .str "hello world"),
        ("context", .obj [("scrollCount", .num 3), ("maxScrolls", .num 10),
          ("domain", .str "news.example.com"), ("timestamp", .num 1),
          ("timeOfDay", .str "morning"), ("scrollTime", .num 2)])]

/-- A content string one character over the 500,000-character limit. -/
def bigContent : String := String.mk (List.replicate 500001 'a')

/-- An oversized-content payload whose context is missing. -/
def bigBodyNoContext : JVal := .obj [("content", .str bigContent)]

/-- An oversized-content payload whose context is fully valid. -/
def bigBodyFullContext : JVal :=
  .obj [("content", .str bigContent),
        ("context", .obj [("scrollCount", .num 3), ("maxScrolls", .num 10),
          ("domain", .str "news.example.com"), ("timestamp", .num 1),
          ("timeOfDay", .str "morning"), ("scrollTime", .num 2)])]

/-- A 101-entry cache whose hit counts strictly increase with insertion
order (keys are distinct single characters). -/
def capCache : CacheState ℕ :=
  (List.range 101).map
    (fun i => (String.mk [Char.ofNat (65 + i)],
      { result := 0, timestamp := 0, hitCount := i }))

/-- The least-used entry of `capCache`. -/
def capEvicted : String × CacheEntry ℕ :=
  (String.mk [Char.ofNat 65], { result := 0, timestamp := 0, hitCount := 0 })

/-- The most-used entry of `capCache`. -/
def capKept : String × CacheEntry ℕ :=
  (String.mk [Char.ofNat 165], { result := 0, timestamp := 0, hitCount := 100 })

/-! ## Map-model helper lemmas -/

theorem mapGet_mapSet_self {α : Type} (c : CacheState α) (k : String) (e : CacheEntry α) :
    mapGet (mapSet c k e) k = some e := by
  induction c with
  | nil => simp [mapSet, mapGet, List.find?]
  | cons hd tl ih =>
    by_cases h : hd.1 = k
    · simp [mapSet, h, mapGet, List.find?]
    · simpa [mapSet, h, mapGet, List.find?, beq_iff_eq] using ih

theorem mapGet_mapDelete_self {α : Type} (c : CacheState α) (k : String) :
    mapGet (mapDelete c k) k = none := by
  rw [mapGet, Option.map_eq_none', List.find?_eq_none]
  intro x hx
  have := List.of_mem_filter hx
  simpa using this

theorem length_mapSet_le {α : Type} (c : CacheState α) (k : String) (e : CacheEntry α) :
    (mapSet c k e).length ≤ c.length + 1 := by
  induction c with
  | nil => simp [mapSet]
  | cons hd tl ih =>
    obtain ⟨k', e'⟩ := hd
    rw [mapSet]
    split
    · simp
    · simp only [List.length_cons]
      omega

theorem mem_keys_mapSet {α : Type} (c : CacheState α) (k : String) (e : CacheEntry α)
    (x : String) (hx : x ∈ (mapSet c k e).map Prod.fst) :
    x ∈ c.map Prod.fst ∨ x = k := by
  induction c with
  | nil => simpa [mapSet] using hx
  | cons hd tl ih =>
    obtain ⟨k', e'⟩ := hd
    rw [mapSet] at hx
    by_cases h : k' = k
    · rw [if_pos (by simpa using h)] at hx
      simp only [List.map_cons, List.mem_cons] at hx ⊢
      subst h
      tauto
    · rw [if_neg (by simpa using h)] at hx
      simp only [List.map_cons, List.mem_cons] at hx ⊢
      rcases hx with h1 | h1
      · tauto
      · rcases ih h1 with h2 | h2 <;> tauto

theorem wf_mapSet {α : Type} (c : CacheState α) (k : String) (e : CacheEntry α)
    (hwf : CacheWF c) : CacheWF (mapSet c k e) := by
  induction c with
  | nil => simp [mapSet, CacheWF]
  | cons hd tl ih =>
    obtain ⟨k', e'⟩ := hd
    rw [CacheWF, List.map_cons, List.nodup_cons] at hwf
    rw [CacheWF, mapSet]
    by_cases h : k' = k
    · rw [if_pos (by simpa using h)]
      rw [List.map_cons, List.nodup_cons]
      exact ⟨h ▸ hwf.1, hwf.2⟩
    · rw [if_neg (by simpa using h)]
      rw [List.map_cons, List.nodup_cons]
      refine ⟨fun hmem => ?_, ih hwf.2⟩
      rcases mem_keys_mapSet tl k e k' hmem with h2 | h2
      · exact hwf.1 h2
      · exact h h2

theorem wf_filter {α : Type} (c : CacheState α) (p : String × CacheEntry α → Bool)
    (hwf : CacheWF c) : CacheWF (c.filter p) :=
  ((List.filter_sublist c).map Prod.fst).nodup hwf

theorem keys_sortByHits_nodup {α : Type} (c : CacheState α) (hwf : CacheWF c) :
    ((CacheService.sortByHits c).map Prod.fst).Nodup :=
  (((List.perm_insertionSort CacheService.hitLE c).map Prod.fst).nodup_iff).mpr hwf

theorem drop_keys_not_removed {α : Type} (c : CacheState α) (hwf : CacheWF c)
    (q : String × CacheEntry α) (hq : q ∈ (CacheService.sortByHits c).drop 100) :
    q.1 ∉ (CacheService.removedEntries c).map Prod.fst := by
  intro hmem
  have hnodup := keys_sortByHits_nodup c hwf
  rw [← List.take_append_drop 100 (CacheService.sortByHits c), List.map_append,
    List.nodup_append] at hnodup
  exact hnodup.2.2 hmem (List.mem_map_of_mem Prod.fst hq)

theorem evictPhase_filter_shape {α : Type} (c : CacheState α) (hwf : CacheWF c) :
    ((CacheService.sortByHits c).filter
        (fun p => !(((CacheService.removedEntries c).map Prod.fst).contains p.1)))
      = (CacheService.sortByHits c).drop 100 := by
  conv_lhs => rw [← List.take_append_drop 100 (CacheService.sortByHits c)]
  rw [List.filter_append]
  have h1 : ((CacheService.sortByHits c).take 100).filter
      (fun p => !(((CacheService.removedEntries c).map Prod.fst).contains p.1)) = [] := by
    rw [List.filter_eq_nil_iff]
    intro a ha
    have hm : a.1 ∈ (CacheService.removedEntries c).map Prod.fst :=
      List.mem_map_of_mem Prod.fst ha
    have hc : ((CacheService.removedEntries c).map Prod.fst).contains a.1 = true :=
      List.elem_iff.mpr hm
    simp only [hc, Bool.not_true, not_false_eq_true, Bool.not_eq_true]
  have h2 : ((CacheService.sortByHits c).drop 100).filter
      (fun p => !(((CacheService.removedEntries c).map Prod.fst).contains p.1))
      = (CacheService.sortByHits c).drop 100 := by
    rw [List.filter_eq_self]
    intro a ha
    have := drop_keys_not_removed c hwf a ha
    simpa [List.elem_iff] using this
  rw [h1, h2, List.nil_append]

theorem evictPhase_length {α : Type} (c : CacheState α) (hwf : CacheWF c) :
    (CacheService.evictPhase c).length = c.length - 100 := by
  have hperm : (CacheService.sortByHits c).Perm c :=
    List.perm_insertionSort CacheService.hitLE c
  have hflt : (c.filter
      (fun p => !(((CacheService.removedEntries c).map Prod.fst).contains p.1))).length
      = ((CacheService.sortByHits c).filter
      (fun p => !(((CacheService.removedEntries c).map Prod.fst).contains p.1))).length :=
    (List.Perm.filter _ hperm.symm).symm.length_eq.symm
  rw [CacheService.evictPhase]
  rw [hflt, evictPhase_filter_shape c hwf, List.length_drop, hperm.length_eq]

theorem wf_evictPhase {α : Type} (c : CacheState α) (hwf : CacheWF c) :
    CacheWF (CacheService.evictPhase c) := wf_filter c _ hwf

theorem wf_expirePhase {α : Type} (now : ℤ) (c : CacheState α) (hwf : CacheWF c) :
    CacheWF (CacheService.expirePhase now c) := wf_filter c _ hwf

theorem set_preserves {α : Type} (c : CacheState α) (k : String) (v : α) (now : ℤ)
    (hwf : CacheWF c) (hlen : c.length ≤ CacheService.MAX_SIZE) :
    CacheWF (CacheService.set c k v now)
      ∧ (CacheService.set c k v now).length ≤ CacheService.MAX_SIZE := by
  rw [CacheService.set]
  by_cases h : CacheService.MAX_SIZE ≤ c.length
  · rw [if_pos h]
    rw [CacheService.cleanOldEntries]
    set c2 := CacheService.expirePhase now c with hc2
    have hwf2 : CacheWF c2 := wf_expirePhase now c hwf
    have hlen2 : c2.length ≤ c.length := List.length_filter_le _ c
    by_cases h2 : CacheService.MAX_SIZE ≤ c2.length
    · rw [if_pos h2]
      have hev := evictPhase_length c2 hwf2
      constructor
      · exact wf_mapSet _ k _ (wf_evictPhase c2 hwf2)
      · have := length_mapSet_le (CacheService.evictPhase c2) k
          { result := v, timestamp := now, hitCount := 0 }
        rw [hev] at this
        rw [CacheService.MAX_SIZE] at *
        omega
    · rw [if_neg h2]
      constructor
      · exact wf_mapSet _ k _ hwf2
      · have := length_mapSet_le c2 k { result := v, timestamp := now, hitCount := 0 }
        rw [CacheService.MAX_SIZE] at *
        omega
  · rw [if_neg h]
    constructor
    · exact wf_mapSet _ k _ hwf
    · have := length_mapSet_le c k { result := v, timestamp := now, hitCount := 0 }
      rw [CacheService.MAX_SIZE] at *
      omega

theorem runSets_preserves {α : Type} (ops : List (String × α × ℤ)) (c : CacheState α)
    (hwf : CacheWF c) (hlen : c.length ≤ CacheService.MAX_SIZE) :
    CacheWF (ops.foldl (fun c op => CacheService.set c op.1 op.2.1 op.2.2) c)
      ∧ (ops.foldl (fun c op => CacheService.set c op.1 op.2.1 op.2.2) c).length
          ≤ CacheService.MAX_SIZE := by
  induction ops generalizing c with
  | nil => exact ⟨hwf, hlen⟩
  | cons op rest ih =>
    rw [List.foldl_cons]
    have h := set_preserves c op.1 op.2.1 op.2.2 hwf hlen
    exact ih _ h.1 h.2

/-! ## Claim theorems -/

/-- C5: after any sequence of `set` operations the cache size is at most
`MAX_SIZE` (1000); `set` reclaims space before inserting (expired entries
first, then the 100 least-used) and the fresh entry always starts with
`hitCount = 0`. -/
theorem c5_cache_capacity :
    (∀ (α : Type) (ops : List (String × α × ℤ)),
      (CacheService.runSets ops).length ≤ CacheService.MAX_SIZE)
    ∧ (∀ (α : Type) (c : CacheState α) (k : String) (v : α) (now : ℤ),
      mapGet (CacheService.set c k v now) k
        = some { result := v, timestamp := now, hitCount := 0 }) := by
  constructor
  · intro α ops
    rw [CacheService.runSets]
    exact (runSets_preserves ops []
      (by simp [CacheWF]) (by simp [CacheService.MAX_SIZE])).2
  · intro α c k v now
    rw [CacheService.set]
    exact mapGet_mapSet_self _ k _

/-- C6: an entry inserted at `t0` is returned by `get` at any time strictly
before `t0 + TTL`, and is absent (and deleted) at any time with
`now - t0 > TTL`. -/
theorem c6_cache_ttl {α : Type} (c : CacheState α) (k : String) (v : α) (t0 t1 : ℤ) :
    (t1 - t0 < CacheService.TTL →
      (CacheService.get (CacheService.set c k v t0) k t1).1 = some v)
    ∧ (CacheService.TTL < t1 - t0 →
      (CacheService.get (CacheService.set c k v t0) k t1).1 = none
        ∧ mapGet (CacheService.get (CacheService.set c k v t0) k t1).2 k = none) := by
  have hm : mapGet (CacheService.set c k v t0) k
      = some { result := v, timestamp := t0, hitCount := 0 } := by
    rw [CacheService.set]
    exact mapGet_mapSet_self _ k _
  constructor
  · intro h
    have hnot : ¬ CacheService.TTL < t1 - t0 :=
      fun hc => absurd (lt_trans hc h) (lt_irrefl _)
    simp [CacheService.get, hm, hnot]
  · intro h
    constructor
    · simp [CacheService.get, hm, h]
    · simp only [CacheService.get, hm]
      simp [h]
      exact mapGet_mapDelete_self _ k

/-- C6 witness: with TTL = 7,200,000 ms, an entry inserted at 0 is present at
7,199,999 and absent at 7,200,001. -/
theorem c6_cache_ttl_witness :
    (CacheService.get (CacheService.set ([] : CacheState ℕ) "k" 7 0) "k" 7199999).1 = some 7
    ∧ (CacheService.get (CacheService.set ([] : CacheState ℕ) "k" 7 0) "k" 7200001).1 = none :=
  ⟨(c6_cache_ttl [] "k" 7 0 7199999).1 (by decide),
   ((c6_cache_ttl [] "k" 7 0 7200001).2 (by decide)).1⟩

/-- C7: every entry the capacity-pressure eviction removes (the first 100 of
the hit-count-sorted entries) has a `hitCount` no larger than that of every
entry it retains. -/
theorem c7_eviction_preference {α : Type} (c : CacheState α)
    (p q : String × CacheEntry α)
    (hp : p ∈ CacheService.removedEntries c)
    (hq : q ∈ CacheService.evictPhase c) :
    p.2.hitCount ≤ q.2.hitCount := by
  have hsorted : List.Sorted CacheService.hitLE (CacheService.sortByHits c) :=
    List.sorted_insertionSort _ _
  simp only [CacheService.evictPhase] at hq
  have hq' := List.mem_filter.mp hq
  have hqc : q ∈ c := hq'.1
  have hqkey : q.1 ∉ (CacheService.removedEntries c).map Prod.fst := by
    intro hmem
    have hb : ((CacheService.removedEntries c).map Prod.fst).contains q.1 = true :=
      List.elem_iff.mpr hmem
    have hq2 := hq'.2
    rw [hb] at hq2
    simp at hq2
  have hqs : q ∈ CacheService.sortByHits c :=
    ((List.perm_insertionSort CacheService.hitLE c).mem_iff).mpr hqc
  have hqsplit : q ∈ (CacheService.sortByHits c).take 100
      ++ (CacheService.sortByHits c).drop 100 := by
    rw [List.take_append_drop]
    exact hqs
  have hqdrop : q ∈ (CacheService.sortByHits c).drop 100 := by
    rcases List.mem_append.mp hqsplit with h | h
    · exact absurd (List.mem_map_of_mem Prod.fst h) hqkey
    · exact h
  have hpw : List.Pairwise CacheService.hitLE
      ((CacheService.sortByHits c).take 100 ++ (CacheService.sortByHits c).drop 100) := by
    rw [List.take_append_drop]
    exact hsorted
  exact (List.pairwise_append.mp hpw).2.2 p hp q hqdrop

/-- C7 witness: in a 101-entry cache with strictly increasing hit counts, the
least-used entry is evicted, the most-used is retained, and the inequality
holds between them. -/
theorem c7_eviction_preference_witness :
    capEvicted ∈ CacheService.removedEntries capCache
    ∧ capKept ∈ CacheService.evictPhase capCache
    ∧ capEvicted.2.hitCount ≤ capKept.2.hitCount := by
  have h2 : capEvicted ∈ CacheService.removedEntries capCache := by decide
  have h3 : capKept ∈ CacheService.evictPhase capCache := by decide
  exact ⟨h2, h3, c7_eviction_preference capCache capEvicted capKept h2 h3⟩

/-- C8: the cache key is deterministic, identical normalized contents give
identical keys, and — for any injective digest, which the collision-resistance
contract of the md5 primitive provides — distinct normalized contents give
distinct keys under the same domain. -/
theorem c8_key_determinism (digest : String → String)
    (hinj : Function.Injective digest) :
    (∀ c d, CacheService.generateCacheKey digest c d
      = CacheService.generateCacheKey digest c d)
    ∧ (∀ c1 c2 d, CacheService.normalizeContent c1 = CacheService.normalizeContent c2 →
      CacheService.generateCacheKey digest c1 d = CacheService.generateCacheKey digest c2 d)
    ∧ (∀ c1 c2 d, CacheService.normalizeContent c1 ≠ CacheService.normalizeContent c2 →
      CacheService.generateCacheKey digest c1 d ≠ CacheService.generateCacheKey digest c2 d) := by
  refine ⟨fun c d => rfl, fun c1 c2 d h => ?_, fun c1 c2 d h hkey => h ?_⟩
  · rw [CacheService.generateCacheKey, CacheService.generateCacheKey, h]
  · have heq := hinj hkey
    have hdata : (CacheService.normalizeContent c1).data
        ++ (":".data ++ d.data)
        = (CacheService.normalizeContent c2).data ++ (":".data ++ d.data) := by
      have h2 := congrArg String.data heq
      simpa [String.data_append, List.append_assoc] using h2
    exact String.ext (List.append_cancel_right hdata)

/-- C8 witness: with the identity as (injective) digest, the keys of "a" and
"b" under the same domain differ. -/
theorem c8_key_determinism_witness :
    CacheService.generateCacheKey id "a" "d.com"
      ≠ CacheService.generateCacheKey id "b" "d.com" :=
  (c8_key_determinism id (fun _ _ h => h)).2.2 "a" "b" "d.com" (by decide)

/-- Every successful outcome of the recovery path is a normalized decode. -/
theorem parseRecovery_ok_normalize (t : List Char) (r : AIAnalysisResponse)
    (h : parseRecovery t = .ok r) : ∃ p, r = normalizeResponse p := by
  unfold parseRecovery at h
  split at h
  · split at h
    · exact ⟨_, (Except.ok.inj h).symm⟩
    · exact absurd h (by simp)
  · exact absurd h (by simp)

/-- Every successful outcome of `parseResponse` is a normalized decode. -/
theorem parseResponseE_ok_normalize (t : String) (r : AIAnalysisResponse)
    (h : parseResponseE t = .ok r) : ∃ p, r = normalizeResponse p := by
  unfold parseResponseE at h
  split at h
  · exact parseRecovery_ok_normalize _ r h
  · split at h
    · exact ⟨_, (Except.ok.inj h).symm⟩
    · exact parseRecovery_ok_normalize _ r h

/-- `Math.max(lo, Math.min(hi, v))` yields a number only within `[lo, hi]`. -/
theorem clamp_range (lo hi : ℚ) (v : JVal) (q : ℚ) (hle : lo ≤ hi)
    (h : jsMax (.num lo) (jsMin (.num hi) v) = .num q) : lo ≤ q ∧ q ≤ hi := by
  cases hv : toNumber v with
  | none =>
    have hmin : jsMin (.num hi) v = .nan := by unfold jsMin; rw [hv]; rfl
    rw [hmin] at h
    have hmax : jsMax (.num lo) JVal.nan = .nan := by unfold jsMax; rfl
    rw [hmax] at h
    simp at h
  | some y =>
    have hmin : jsMin (.num hi) v = .num (min hi y) := by
      unfold jsMin; rw [hv]; rfl
    rw [hmin] at h
    have hmax : jsMax (.num lo) (.num (min hi y)) = .num (max lo (min hi y)) := by
      unfold jsMax; rfl
    rw [hmax] at h
    have hq : max lo (min hi y) = q := JVal.num.inj h
    constructor
    · exact hq ▸ le_max_left lo _
    · exact hq ▸ max_le hle (min_le_left hi y)

/-- C1: for every model-call outcome (hence every raw text), the pipeline
returns a result without any fault escaping: either the Fallback Result —
which is structurally valid — or a successfully decoded, normalized result
(whose enum fields, however, are passed through unvalidated; see the
counterexample). -/
theorem c1_parser_totality : ∀ (call : Except Unit String),
    (analyzeContentM call = getFallbackResponse
      ∨ ∃ t r, call = .ok t ∧ parseResponseE t = .ok r ∧ analyzeContentM call = r)
    ∧ specStructurallyValid getFallbackResponse = true := by
  intro call
  refine ⟨?_, by rfl⟩
  cases call with
  | error e => exact Or.inl rfl
  | ok t =>
    cases h : parseResponseE t with
    | ok r =>
      refine Or.inr ⟨t, r, rfl, h, ?_⟩
      simp only [analyzeContentM]
      rw [h]
    | error e =>
      refine Or.inl ?_
      simp only [analyzeContentM]
      rw [h]

/-- C1 counterexample: the decodable reply whose `user_pattern` is `"X"`
produces a result that is not structurally valid — the parser never checks
the enum memberships. -/
theorem c1_counterexample :
    specStructurallyValid (analyzeContentM (.ok invalidEnumText)) = false
    ∧ (analyzeContentM (.ok invalidEnumText)).user_pattern = .str "X"
    ∧ "X" ∉ patternVariants :=
  ⟨rfl, rfl, by decide⟩

/-- C2 (amended): whenever a parsed result's `bonus_scrolls` is a number, it
lies in the clamp range `[0, 20]` — the only range the code enforces; the
reward is the model's own (clamped) number. -/
theorem c2_bonus_clamped (t : String) (r : AIAnalysisResponse) (q : ℚ)
    (h1 : parseResponseE t = .ok r) (h2 : r.bonus_scrolls = .num q) :
    0 ≤ q ∧ q ≤ 20 := by
  obtain ⟨p, hp⟩ := parseResponseE_ok_normalize t r h1
  subst hp
  exact clamp_range 0 20 (jsOr (getField p "bonus_scrolls") (.num 0)) q (by norm_num) h2

/-- C2 witness: a decode with `bonus_scrolls: 5` is within the clamp range. -/
theorem c2_bonus_clamped_witness : 0 ≤ (5 : ℚ) ∧ (5 : ℚ) ≤ 20 :=
  c2_bonus_clamped happy5Text (normalizeResponse happy5Parsed) 5 rfl rfl

/-- C2 counterexample: a reply classified Deep Focus/Learning with
model-proposed `bonus_scrolls: 0` keeps 0, outside the prompt's deep-focus
range 12–20 — no policy table overwrites the model's number. -/
theorem c2_reward_range_counterexample :
    (analyzeContentM (.ok deepFocusZeroBonusText)).user_pattern
      = .str "Deep Focus/Learning"
    ∧ (analyzeContentM (.ok deepFocusZeroBonusText)).bonus_scrolls = .num 0
    ∧ rewardStrategyRange "Deep Focus/Learning" = some (12, 20)
    ∧ ¬(12 ≤ (0 : ℚ)) :=
  ⟨rfl, rfl, rfl, by norm_num⟩

/-- C3 (amended): the `/api/analyze` route never changes the cache — for any
prior cache state, body and model outcome, the cache after handling equals
the cache before; `CacheService` is implemented but not wired into the
route. -/
theorem c3_cache_never_written : ∀ (α : Type) (cache : CacheState α) (body : JVal)
    (call : Except Unit String), (handleAnalyze cache body call).2 = cache := by
  intro α cache body call
  unfold handleAnalyze
  cases h : validateRequest body with
  | error msg => rfl
  | ok u => rfl

/-- C3 counterexample: a fully successful run (valid body, successful model
call and parse) leaves an initially empty cache empty; in particular the
request's fingerprint key is absent afterwards. -/
theorem c3_cache_counterexample :
    (handleAnalyze ([] : CacheState AIAnalysisResponse) goodBody (.ok happy5Text)).1
      = .success (normalizeResponse happy5Parsed)
    ∧ (handleAnalyze ([] : CacheState AIAnalysisResponse) goodBody (.ok happy5Text)).2 = []
    ∧ mapGet (handleAnalyze ([] : CacheState AIAnalysisResponse) goodBody (.ok happy5Text)).2
        (CacheService.generateCacheKey id "hello world" "news.example.com") = none :=
  ⟨rfl, rfl, rfl⟩

/-- C4 (amended): for every raw text with no recoverable JSON, the pipeline
returns the Fallback Result, whose `userPattern` is Casual Browsing/Catch-up
and `recommendedAction` is `maintain_limit` — but whose `bonusScrolls` is
zero. -/
theorem c4_fallback_fields (t : String) (h : parseResponseE t = .error ()) :
    analyzeContentM (.ok t) = getFallbackResponse
    ∧ getFallbackResponse.user_pattern = .str "Casual Browsing/Catch-up"
    ∧ getFallbackResponse.recommended_action = .str "maintain_limit"
    ∧ getFallbackResponse.bonus_scrolls = .num 0 := by
  refine ⟨?_, rfl, rfl, rfl⟩
  simp only [analyzeContentM]
  rw [h]

/-- C4 witness: the spec's garbage text has no recoverable JSON and yields
the Fallback Result. -/
theorem c4_fallback_fields_witness :
    analyzeContentM (.ok garbageText) = getFallbackResponse
    ∧ getFallbackResponse.user_pattern = .str "Casual Browsing/Catch-up"
    ∧ getFallbackResponse.recommended_action = .str "maintain_limit"
    ∧ getFallbackResponse.bonus_scrolls = .num 0 :=
  c4_fallback_fields garbageText rfl

/-- C4 counterexample: on the garbage text the fallback's `bonusScrolls` is
exactly 0, refuting the claimed non-zero reward. -/
theorem c4_nonzero_bonus_counterexample :
    analyzeContentM (.ok garbageText) = getFallbackResponse
    ∧ (analyzeContentM (.ok garbageText)).user_pattern = .str "Casual Browsing/Catch-up"
    ∧ (analyzeContentM (.ok garbageText)).recommended_action = .str "maintain_limit"
    ∧ ¬((analyzeContentM (.ok garbageText)).bonus_scrolls ≠ .num 0) :=
  ⟨rfl, rfl, rfl, fun hne => hne rfl⟩

/-- C10: the missing-field defaults are applied by JavaScript falsiness, so
`addiction_risk` 0 (or NaN) is replaced by the neutral default 5, while
`educational_value` 0 and `bonus_scrolls` 0 are preserved (their defaults are
themselves 0). -/
theorem c10_zero_risk_defaulted (p : JVal) :
    ((getField p "addiction_risk" = .num 0 ∨ getField p "addiction_risk" = .nan) →
      (normalizeResponse p).addiction_risk = .num 5)
    ∧ (getField p "educational_value" = .num 0 →
      (normalizeResponse p).educational_value = .num 0)
    ∧ (getField p "bonus_scrolls" = .num 0 →
      (normalizeResponse p).bonus_scrolls = .num 0) := by
  refine ⟨?_, ?_, ?_⟩
  · rintro (h | h) <;>
      (show jsMax (.num 0) (jsMin (.num 10)
          (jsOr (getField p "addiction_risk") (.num 5))) = .num 5
       rw [h]
       rfl)
  · intro h
    show jsMax (.num 0) (jsMin (.num 10)
        (jsOr (getField p "educational_value") (.num 0))) = .num 0
    rw [h]
    rfl
  · intro h
    show jsMax (.num 0) (jsMin (.num 20)
        (jsOr (getField p "bonus_scrolls") (.num 0))) = .num 0
    rw [h]
    rfl

/-- C10 witness: on a decoded object with all three fields exactly 0, the
risk becomes 5 while value and bonus stay 0. -/
theorem c10_zero_risk_defaulted_witness :
    (normalizeResponse zeroFieldsObj).addiction_risk = .num 5
    ∧ (normalizeResponse zeroFieldsObj).educational_value = .num 0
    ∧ (normalizeResponse zeroFieldsObj).bonus_scrolls = .num 0 :=
  ⟨(c10_zero_risk_defaulted zeroFieldsObj).1 (Or.inl rfl),
   (c10_zero_risk_defaulted zeroFieldsObj).2.1 rfl,
   (c10_zero_risk_defaulted zeroFieldsObj).2.2 rfl⟩

/-- `dropWhile` leaves a run of `'a'`s untouched. -/
theorem dropWhile_replicate_a (n : ℕ) :
    (List.replicate n 'a').dropWhile isJsWs = List.replicate n 'a' := by
  cases n with
  | zero => rfl
  | succ m =>
    rw [List.replicate_succ, List.dropWhile_cons]
    simp [show isJsWs 'a' = false from rfl]

/-- Trimming a run of `'a'`s is the identity. -/
theorem jsTrim_replicate_a (n : ℕ) :
    jsTrim (List.replicate n 'a') = List.replicate n 'a' := by
  rw [jsTrim, dropWhile_replicate_a, List.reverse_replicate, dropWhile_replicate_a,
    List.reverse_replicate]

/-- The oversized no-context body passes the content-emptiness check. -/
theorem contentNonempty_bigNoContext : contentNonempty bigBodyNoContext = true := by
  rw [contentNonempty, show strVal (contentOf bigBodyNoContext) = bigContent from rfl,
    show bigContent.data = List.replicate 500001 'a' from rfl, jsTrim_replicate_a]
  rfl

/-- The oversized full-context body passes the content-emptiness check. -/
theorem contentNonempty_bigFull : contentNonempty bigBodyFullContext = true := by
  rw [contentNonempty, show strVal (contentOf bigBodyFullContext) = bigContent from rfl,
    show bigContent.data = List.replicate 500001 'a' from rfl, jsTrim_replicate_a]
  rfl

/-- The oversized content fails the size check. -/
theorem contentSizeOk_bigFull : contentSizeOk bigBodyFullContext = false := by
  rw [contentSizeOk, show strVal (contentOf bigBodyFullContext) = bigContent from rfl,
    show bigContent.data = List.replicate 500001 'a' from rfl, List.length_replicate]
  rfl

/-- C9 (amended): the content-size (≤ 500,000) check runs after every context
check — whenever the validator reports "Content too large", every content
and context rule had already passed. -/
theorem c9_content_size_after_context (body : JVal)
    (h : validateRequest body = .error "Content too large. Maximum size is 500KB") :
    contentPresent body = true ∧ contentIsString body = true
    ∧ contentNonempty body = true ∧ contextPresent body = true
    ∧ contextIsObject body = true
    ∧ firstMissingField (contextOf body) = none
    ∧ scrollCountOk body = true ∧ maxScrollsOk body = true
    ∧ domainOk body = true ∧ timestampOk body = true
    ∧ timeOfDayOk body = true ∧ scrollTimeOk body = true := by
  rw [validateRequest] at h
  by_cases ht : bodyAccessThrows body = true
  · rw [if_pos ht] at h; exact absurd h (by simp)
  rw [if_neg ht] at h
  by_cases h1 : (!contentPresent body) = true
  · rw [if_pos h1] at h; exact absurd (Except.error.inj h) (by decide)
  rw [if_neg h1] at h
  by_cases h2 : (!contentIsString body) = true
  · rw [if_pos h2] at h; exact absurd (Except.error.inj h) (by decide)
  rw [if_neg h2] at h
  by_cases h3 : (!contentNonempty body) = true
  · rw [if_pos h3] at h; exact absurd (Except.error.inj h) (by decide)
  rw [if_neg h3] at h
  by_cases h4 : (!contextPresent body) = true
  · rw [if_pos h4] at h; exact absurd (Except.error.inj h) (by decide)
  rw [if_neg h4] at h
  by_cases h5 : (!contextIsObject body) = true
  · rw [if_pos h5] at h; exact absurd (Except.error.inj h) (by decide)
  rw [if_neg h5] at h
  cases hf : firstMissingField (contextOf body) with
  | some f =>
    rw [hf] at h
    have hinj := Except.error.inj h
    have hfmem := List.mem_of_find?_eq_some hf
    fin_cases hfmem <;> exact absurd hinj (by decide)
  | none =>
    rw [hf] at h
    by_cases g1 : (!scrollCountOk body) = true
    · rw [if_pos g1] at h; exact absurd (Except.error.inj h) (by decide)
    rw [if_neg g1] at h
    by_cases g2 : (!maxScrollsOk body) = true
    · rw [if_pos g2] at h; exact absurd (Except.error.inj h) (by decide)
    rw [if_neg g2] at h
    by_cases g3 : (!domainOk body) = true
    · rw [if_pos g3] at h; exact absurd (Except.error.inj h) (by decide)
    rw [if_neg g3] at h
    by_cases g4 : (!timestampOk body) = true
    · rw [if_pos g4] at h; exact absurd (Except.error.inj h) (by decide)
    rw [if_neg g4] at h
    by_cases g5 : (!timeOfDayOk body) = true
    · rw [if_pos g5] at h; exact absurd (Except.error.inj h) (by decide)
    rw [if_neg g5] at h
    by_cases g6 : (!scrollTimeOk body) = true
    · rw [if_pos g6] at h; exact absurd (Except.error.inj h) (by decide)
    rw [if_neg g6] at h
    simp only [Bool.not_eq_true, Bool.not_eq_false, Bool.not_eq_false', Bool.not_eq_true'] at h1 h2 h3 h4 h5 g1 g2 g3 g4 g5 g6
    exact ⟨h1, h2, h3, h4, h5, rfl, g1, g2, g3, g4, g5, g6⟩

/-- C9 witness: a payload whose content is 500,001 characters and whose
context is fully valid is rejected by the size rule, and all earlier rules
had passed. -/
theorem c9_content_size_after_context_witness :
    contentPresent bigBodyFullContext = true ∧ contentIsString bigBodyFullContext = true
    ∧ contentNonempty bigBodyFullContext = true ∧ contextPresent bigBodyFullContext = true
    ∧ contextIsObject bigBodyFullContext = true
    ∧ firstMissingField (contextOf bigBodyFullContext) = none
    ∧ scrollCountOk bigBodyFullContext = true ∧ maxScrollsOk bigBodyFullContext = true
    ∧ domainOk bigBodyFullContext = true ∧ timestampOk bigBodyFullContext = true
    ∧ timeOfDayOk bigBodyFullContext = true ∧ scrollTimeOk bigBodyFullContext = true := by
  have hbig : validateRequest bigBodyFullContext
      = .error "Content too large. Maximum size is 500KB" := by
    rw [validateRequest]
    simp [show bodyAccessThrows bigBodyFullContext = false from rfl,
      show contentPresent bigBodyFullContext = true from rfl,
      show contentIsString bigBodyFullContext = true from rfl,
      contentNonempty_bigFull,
      show contextPresent bigBodyFullContext = true from rfl,
      show contextIsObject bigBodyFullContext = true from rfl,
      show firstMissingField (contextOf bigBodyFullContext) = none from rfl,
      show scrollCountOk bigBodyFullContext = true from rfl,
      show maxScrollsOk bigBodyFullContext = true from rfl,
      show domainOk bigBodyFullContext = true from rfl,
      show timestampOk bigBodyFullContext = true from rfl,
      show timeOfDayOk bigBodyFullContext = true from rfl,
      show scrollTimeOk bigBodyFullContext = true from rfl,
      contentSizeOk_bigFull]
  exact c9_content_size_after_context bigBodyFullContext hbig

/-- C9 counterexample: an oversized-content payload with a missing context is
rejected for the missing context, not for the content-length rule — the
content checks do not all precede the context checks. -/
theorem c9_order_counterexample :
    validateRequest bigBodyNoContext = .error "Missing required field: context"
    ∧ 500000 < bigContent.data.length
    ∧ ("Missing required field: context" : String)
        ≠ "Content too large. Maximum size is 500KB" := by
  refine ⟨?_, ?_, by decide⟩
  · rw [validateRequest]
    simp [show bodyAccessThrows bigBodyNoContext = false from rfl,
      show contentPresent bigBodyNoContext = true from rfl,
      show contentIsString bigBodyNoContext = true from rfl,
      contentNonempty_bigNoContext,
      show contextPresent bigBodyNoContext = false from rfl]
  · rw [show bigContent.data = List.replicate 500001 'a' from rfl, List.length_replicate]
    norm_num
